import Mathlib

/-!
# Verification of `rf_att_control` (src/rfcontrol.py)

Shallow embedding of the RF mechanical-attenuator controller:
the transport enumerator (`get_acm_ctrl_list`), the registry
construction (`RfControl.__init__`, modelled as `rfInit`), the
destructor (`RfControl.__del__`, folded into `rfInit`'s accounting of
still-open sessions), and the four facade operations
(`get_att_value`, `set_att_value`, `set_step_up`, `set_step_down`).

Physical instruments are modelled as deterministic state machines
(`InstrumentModel`): a query either fails (timeout / channel failure,
the exceptions pyvisa raises) or yields one response line and a new
device state.  Python exceptions crossing a function boundary are
modelled with `Except`; Python floats are modelled as `ℚ` (the decimal
response tokens of this device are exact in both).  Each facade
operation also returns the updated registry and the list of command
strings it sent, so that frame conditions can be stated.
-/

/-- Failures of a single `query` round-trip (pyvisa `TimeoutError`,
channel `IOError`). -/
inductive QueryError where
  | timeout
  | ioFailure
deriving DecidableEq, Repr

/-- Python exceptions that can escape a facade operation:
the two transport failures, `ValueError` from `float(...)` on a
non-numeric string, and `KeyError` from a dictionary lookup. -/
inductive PyError where
  | timeout
  | ioFailure
  | valueError
  | keyError
deriving DecidableEq, Repr

/-- A pyvisa exception propagates unchanged through the facade code. -/
def liftQ : QueryError → PyError
  | .timeout => .timeout
  | .ioFailure => .ioFailure

/-- The `(status, att_val, msg)` tuple every facade operation returns
(source: the common `return status, att_val, msg` lines). -/
structure Triple where
  status : Bool
  att_val : Option ℚ
  msg : String
deriving DecidableEq, Repr

/-- A physical instrument: from a device state and a command line,
either a transport failure or one response line plus the new device
state.  This is the model of `pyvisa` `Resource.query`. -/
structure InstrumentModel (σ : Type) where
  step : σ → String → Except QueryError (String × σ)

/-! ## Decimal strings

`'att%d' % i` and `float(...)` need an executable model of decimal
representation and parsing.  Everything is structural recursion so
that concrete instances reduce inside `decide`. -/

/-- Little-endian decimal digits of `n`; the first argument is fuel
(`n` itself suffices), keeping the recursion structural. -/
def digitsRevAux : Nat → Nat → List Nat
  | 0, _ => []
  | fuel + 1, n => if n = 0 then [] else n % 10 :: digitsRevAux fuel (n / 10)

/-- Little-endian decimal digits of `n` (empty for 0). -/
def digitsRev (n : Nat) : List Nat :=
  digitsRevAux n n

/-- The character for one decimal digit. -/
def digitChar (d : Nat) : Char :=
  Char.ofNat (48 + d)

/-- Decimal representation of a natural number, modelling `%d`. -/
def decimalRepr (n : Nat) : String :=
  if n = 0 then "0" else String.mk ((digitsRev n).reverse.map digitChar)

/-- The logical name `'att%d' % i` (source line 36). -/
def attName (i : Nat) : String :=
  "att" ++ decimalRepr i

/-- Numeric value of a list of decimal digit characters. -/
def digitsVal (cs : List Char) : Nat :=
  cs.foldl (fun a c => 10 * a + (c.toNat - 48)) 0

/-- Model of Python `float(s)` on decimal strings: optional
whitespace, optional sign, digits with at most one decimal point
(`"5."`, `".5"` accepted, `"."`, `""`, `"abc"` rejected).  Binary
floating point is modelled by exact rationals; the decimal tokens this
device produces are exactly representable either way. -/
def parseFloat (s : String) : Option ℚ :=
  let cs := (s.toList.dropWhile Char.isWhitespace).reverse.dropWhile Char.isWhitespace |>.reverse
  let (sgn, body) : ℚ × List Char :=
    match cs with
    | '-' :: r => (-1, r)
    | '+' :: r => (1, r)
    | _ => (1, cs)
  let ip := body.takeWhile (fun c => c ≠ '.')
  match body.dropWhile (fun c => c ≠ '.') with
  | [] =>
      if ip ≠ [] ∧ ip.all Char.isDigit then some (sgn * (digitsVal ip : ℚ)) else none
  | _ :: fp =>
      if (ip ++ fp) ≠ [] ∧ ip.all Char.isDigit ∧ fp.all Char.isDigit then
        some (sgn * ((digitsVal ip : ℚ) + (digitsVal fp : ℚ) / (10 : ℚ) ^ fp.length))
      else none

/-- Model of `'{:f}'.format(x)`: sign, integer part, six digits after
the decimal point.  (`{:f}` rounds the seventh decimal; this model
truncates — no property below looks at the seventh decimal of a
formatted value.) -/
def formatF (q : ℚ) : String :=
  let u : Nat := (⌊|q| * 1000000⌋).toNat
  let fs := decimalRepr (u % 1000000)
  let pad := String.mk (List.replicate (6 - fs.length) '0')
  (if q < 0 then "-" else "") ++ decimalRepr (u / 1000000) ++ "." ++ pad ++ fs

/-- The set command `'ATT:ATTSet? {:f}'.format(float(att_value))`
(source line 101). -/
def setCmd (x : ℚ) : String :=
  "ATT:ATTSet? " ++ formatF x

/-- Python `s.split(',')` over a character list: split on every comma,
empty fields kept, one (possibly empty) field when there is no comma. -/
def splitCommaAux : List Char → List Char → List String
  | [], acc => [String.mk acc.reverse]
  | c :: cs, acc =>
      if c = ',' then String.mk acc.reverse :: splitCommaAux cs []
      else splitCommaAux cs (c :: acc)

/-- Model of `list(resp.split(','))` (source line 45). -/
def splitComma (s : String) : List String :=
  splitCommaAux s.toList []

/-! ## Python dictionaries

`self.instruments` and `self.att_values_allowed` are Python dicts:
insertion-ordered, one entry per key; re-assigning an existing key
replaces the value in place.  Modelled as association lists. -/

/-- Dictionary lookup: the (unique) entry with the given key. -/
def dictLookup : List (String × α) → String → Option α
  | [], _ => none
  | (a, b) :: t, k => if a == k then some b else dictLookup t k

/-- Dictionary assignment `d[k] = v`: replace the value in place if
the key exists, append otherwise (Python 3.7+ insertion-order
semantics; a dict holds each key at most once). -/
def dictInsert : List (String × α) → String → α → List (String × α)
  | [], k, v => [(k, v)]
  | (a, b) :: t, k, v => if a == k then (k, v) :: t else (a, b) :: dictInsert t k v

/-! ## The controller object -/

/-- The state of an `RfControl` object after a successful `__init__`:
the discovered resource names, the name → session dict, and the
name → allowed-token-list dict.  `σ` is the device-state type of the
session behind each open channel. -/
structure RfControl (σ : Type) where
  resource_names : List String
  instruments : List (String × σ)
  att_values_allowed : List (String × List String)

namespace RfControl

/-- `get_instrument_names` (source lines 49-55): `list(self.instruments.keys())`. -/
def get_instrument_names (ctl : RfControl σ) : List String :=
  ctl.instruments.map Prod.fst

/-- `get_available_gain_values` (source lines 57-63). -/
def get_available_gain_values (ctl : RfControl σ) : List (String × List String) :=
  ctl.att_values_allowed

/-- `get_att_value` (source lines 66-83).  Returns the Python result —
either the `(status, att_val, msg)` tuple or an escaping exception —
together with the registry afterwards (a successful query advances the
session's device state) and the list of commands sent. -/
def get_att_value (M : InstrumentModel σ) (ctl : RfControl σ) (instrument_name : String) :
    Except PyError Triple × RfControl σ × List String :=
  match dictLookup ctl.instruments instrument_name with
  | none =>
      -- `msg = 'Instrument name not found'`, line 82
      (.ok ⟨false, none, "Instrument name not found"⟩, ctl, [])
  | some s =>
      -- line 80: `att_val = float(self.instruments[name].query('ATT:ATTGetCurVal?'))`
      match M.step s ("ATT:ATTGetCurVal?") with
      | .error e => (.error (liftQ e), ctl, ["ATT:ATTGetCurVal?"])
      | .ok (resp, s1) =>
          let ctl1 : RfControl σ :=
            { ctl with instruments := dictInsert ctl.instruments instrument_name s1 }
          match parseFloat resp with
          | none => (.error .valueError, ctl1, ["ATT:ATTGetCurVal?"])
          | some v => (.ok ⟨true, some v, ""⟩, ctl1, ["ATT:ATTGetCurVal?"])

/-- `set_att_value` (source lines 85-107).  Membership of `att_value`
in the cached allowed list is exact string-token membership
(`att_value in self.att_values_allowed[instrument_name]`, line 100). -/
def set_att_value (M : InstrumentModel σ) (ctl : RfControl σ)
    (instrument_name att_value : String) :
    Except PyError Triple × RfControl σ × List String :=
  match dictLookup ctl.instruments instrument_name with
  | none =>
      (.ok ⟨false, none, "Instrument name not found"⟩, ctl, [])
  | some s =>
      match dictLookup ctl.att_values_allowed instrument_name with
      | none => (.error .keyError, ctl, [])
      | some allowed =>
          if att_value ∈ allowed then
            -- line 101, evaluated inside-out: `float(att_value)` first …
            match parseFloat att_value with
            | none => (.error .valueError, ctl, [])
            | some x =>
                -- … then the query with the formatted command …
                match M.step s (setCmd x) with
                | .error e => (.error (liftQ e), ctl, [setCmd x])
                | .ok (resp, s1) =>
                    let ctl1 : RfControl σ :=
                      { ctl with instruments := dictInsert ctl.instruments instrument_name s1 }
                    -- … then `float(...)` of the echoed response.
                    match parseFloat resp with
                    | none => (.error .valueError, ctl1, [setCmd x])
                    | some v => (.ok ⟨true, some v, ""⟩, ctl1, [setCmd x])
          else
            -- `msg = 'Unsupported attenuation value'`, line 104
            (.ok ⟨false, none, "Unsupported attenuation value"⟩, ctl, [])

/-- `set_step_up` (source lines 109-126).  Note the unknown-name
message is `'Unsupported attenuation value'` (line 125), not
`'Instrument name not found'`. -/
def set_step_up (M : InstrumentModel σ) (ctl : RfControl σ) (instrument_name : String) :
    Except PyError Triple × RfControl σ × List String :=
  match dictLookup ctl.instruments instrument_name with
  | none =>
      (.ok ⟨false, none, "Unsupported attenuation value"⟩, ctl, [])
  | some s =>
      match M.step s ("ATT:ATTSetUp?") with
      | .error e => (.error (liftQ e), ctl, ["ATT:ATTSetUp?"])
      | .ok (resp, s1) =>
          let ctl1 : RfControl σ :=
            { ctl with instruments := dictInsert ctl.instruments instrument_name s1 }
          match parseFloat resp with
          | none => (.error .valueError, ctl1, ["ATT:ATTSetUp?"])
          | some v => (.ok ⟨true, some v, ""⟩, ctl1, ["ATT:ATTSetUp?"])

/-- `set_step_down` (source lines 128-145); same unknown-name message
asymmetry as `set_step_up` (line 144). -/
def set_step_down (M : InstrumentModel σ) (ctl : RfControl σ) (instrument_name : String) :
    Except PyError Triple × RfControl σ × List String :=
  match dictLookup ctl.instruments instrument_name with
  | none =>
      (.ok ⟨false, none, "Unsupported attenuation value"⟩, ctl, [])
  | some s =>
      match M.step s ("ATT:ATTSetDown?") with
      | .error e => (.error (liftQ e), ctl, ["ATT:ATTSetDown?"])
      | .ok (resp, s1) =>
          let ctl1 : RfControl σ :=
            { ctl with instruments := dictInsert ctl.instruments instrument_name s1 }
          match parseFloat resp with
          | none => (.error .valueError, ctl1, ["ATT:ATTSetDown?"])
          | some v => (.ok ⟨true, some v, ""⟩, ctl1, ["ATT:ATTSetDown?"])

end RfControl

/-- Does `"ACM"` occur as a contiguous substring of `cs`? -/
def hasACMSub : List Char → Bool
  | [] => false
  | c :: cs => ("ACM".toList).isPrefixOf (c :: cs) || hasACMSub cs

/-- `get_acm_ctrl_list` (source lines 156-164):
`[elem for elem in interfaces_list if 'ACM' in elem]`. -/
def get_acm_ctrl_list (interfaces_list : List String) : List String :=
  interfaces_list.filter (fun elem => hasACMSub elem.toList)

/-! ## Registry construction (`__init__`, source lines 18-46) and
teardown (`__del__`, source lines 148-154)

`__init__` filters the enumerated resource list, fails when no ACM
resource is present, opens one session per resource in a dict
comprehension keyed by `'att%d' % self.resource_names.index(ins)`
(note: `.index` is the index of the FIRST occurrence), applies the
timeout / line-termination settings (no observable effect in this
model), and fetches each instrument's allowed-value table.

Exceptions and resource accounting are modelled explicitly.  Sessions
carry a serial number so that distinct opens of the same address are
distinct sessions.  CPython calls `__del__` on the partially
constructed object as soon as `__init__` raises; `__del__` iterates
`self.instruments.values()` — if the comprehension at line 36 raised,
`self.instruments` is still the class-level default `[]` (a list,
which has no `.values()`), so `__del__` dies on an `AttributeError`
(which Python swallows) and closes nothing. -/

/-- One opened channel: a serial number plus the device state. -/
structure Sess (σ : Type) where
  id : Nat
  st : σ
deriving DecidableEq, Repr

/-- Model of Python `list.index` (index of the first occurrence). -/
def listIndex : List String → String → Nat
  | [], _ => 0
  | a :: l, x => if a = x then 0 else listIndex l x + 1

/-- How `__init__` fails: the explicit `NameError` at line 33, a
failed `open_resource` (pyvisa error), or a failed initial
`ATT:ATTTabGet?` query. -/
inductive InitError where
  | noAcm (msg : String)
  | openFailed
  | queryFailed
deriving DecidableEq, Repr

/-- The dict comprehension at lines 36-37: walk `rest` (a suffix of
the filtered list `full`), open each address, and assign
`d[attName (full.index ins)] = session`.  Returns the final dict (or
the open failure) together with the `(serial, address)` list of the
sessions actually opened, in open order.  `ctr` numbers the opens. -/
def buildInstrAux (openF : String → Option σ) (full : List String) :
    List String → List (String × Sess σ) → Nat →
    Except Unit (List (String × Sess σ)) × List (Nat × String)
  | [], acc, _ => (.ok acc, [])
  | ins :: rest, acc, ctr =>
      match openF ins with
      | none => (.error (), [])
      | some s0 =>
          let out := buildInstrAux openF full rest
            (dictInsert acc (attName (listIndex full ins)) ⟨ctr, s0⟩) (ctr + 1)
          (out.1, (ctr, ins) :: out.2)

/-- The dict comprehension at lines 45-46: query `ATT:ATTTabGet?` on
every session in dict order, split each response on commas.  A query
failure aborts the comprehension.  Returns the allowed-values dict and
the sessions with their advanced device states. -/
def queryAllowedAux (M : InstrumentModel σ) :
    List (String × Sess σ) →
    Except Unit (List (String × List String) × List (String × Sess σ))
  | [] => .ok ([], [])
  | (name, s) :: rest =>
      match M.step s.st ("ATT:ATTTabGet?") with
      | .error _ => .error ()
      | .ok (resp, st1) =>
          match queryAllowedAux M rest with
          | .error e => .error e
          | .ok (allowed, instrs) =>
              .ok ((name, splitComma resp) :: allowed, (name, ⟨s.id, st1⟩) :: instrs)

/-- `RfControl.__init__` (lines 18-46) plus the `__del__` run CPython
performs when `__init__` raises.  `openF` is the environment's
`open_resource` behaviour per address (`none` = raises), `M` the
instruments' query behaviour, `resources` the `list_resources()`
result.  Returns the constructed object (or the propagated error)
together with the `(serial, address)` list of sessions that are STILL
OPEN when control returns to the caller:
* no ACM resource: `NameError` before any open — nothing open;
* an open fails: comprehension aborts, `self.instruments` was never
  assigned, `__del__` hits the class-level list default and closes
  nothing — every session opened so far stays open;
* an initial query fails: `self.instruments` holds the full dict and
  `__del__` closes exactly its values — only sessions that were
  overwritten out of the dict (duplicate logical names) stay open;
* success: the object owns its sessions, all stay open. -/
def rfInit (openF : String → Option σ) (M : InstrumentModel σ) (resources : List String) :
    Except InitError (RfControl (Sess σ)) × List (Nat × String) :=
  let names := get_acm_ctrl_list resources
  if names = [] then
    (.error (.noAcm ("No ACM resources found, please check your devices connection")), [])
  else
    match buildInstrAux openF names names [] 0 with
    | (.error _, opened) => (.error .openFailed, opened)
    | (.ok instrs, opened) =>
        match queryAllowedAux M instrs with
        | .error _ =>
            (.error .queryFailed,
              opened.filter (fun p => ! instrs.any (fun q => q.2.id == p.1)))
        | .ok (allowed, instrs1) =>
            (.ok ⟨names, instrs1, allowed⟩, opened)

/-! ## A simulated instrument double

A deterministic attenuator model for the round-trip property: it
holds the ordered table of allowed-value tokens and an index into it;
stepping up/down moves the index, clamping at the ends, and every
answer echoes the token now selected. -/

/-- State of the simulated attenuator. -/
structure SimState where
  table : List String
  idx : Nat
deriving DecidableEq, Repr

/-- Python `','.join(table)`. -/
def joinComma : List String → String
  | [] => ""
  | [x] => x
  | x :: xs => x ++ "," ++ joinComma xs

/-- Response behaviour of the simulated attenuator. -/
def simStep (s : SimState) (cmd : String) : Except QueryError (String × SimState) :=
  if cmd = "ATT:ATTTabGet?" then
    .ok (joinComma s.table, s)
  else if cmd = "ATT:ATTGetCurVal?" then
    .ok (s.table.getD s.idx (""), s)
  else if cmd = "ATT:ATTSetUp?" then
    let i := if s.idx + 1 < s.table.length then s.idx + 1 else s.idx
    .ok (s.table.getD i (""), ⟨s.table, i⟩)
  else if cmd = "ATT:ATTSetDown?" then
    let i := s.idx - 1
    .ok (s.table.getD i (""), ⟨s.table, i⟩)
  else
    .error .ioFailure

/-- The simulated attenuator as an instrument model. -/
def simModel : InstrumentModel SimState :=
  ⟨simStep⟩

/-! ## Infrastructure lemmas -/

theorem dictLookup_dictInsert_self (d : List (String × α)) (k : String) (v : α) :
    dictLookup (dictInsert d k v) k = some v := by
  induction d with
  | nil => simp [dictInsert, dictLookup]
  | cons p t ih =>
      obtain ⟨a, b⟩ := p
      by_cases h : a = k
      · simp [dictInsert, dictLookup, h]
      · simp [dictInsert, dictLookup, h, ih]

theorem dictInsert_fresh (d : List (String × α)) (k : String) (v : α)
    (h : ∀ p ∈ d, p.1 ≠ k) : dictInsert d k v = d ++ [(k, v)] := by
  induction d with
  | nil => rfl
  | cons p t ih =>
      obtain ⟨a, b⟩ := p
      have ha : a ≠ k := h (a, b) (List.mem_cons_self _ _)
      simp only [dictInsert, beq_iff_eq, if_neg ha, List.cons_append, List.cons.injEq, true_and]
      exact ih (fun q hq => h q (List.mem_cons_of_mem _ hq))

/-- Value of a little-endian decimal digit list. -/
def digitsValRev : List Nat → Nat
  | [] => 0
  | d :: ds => d + 10 * digitsValRev ds

theorem digitsValRev_digitsRevAux : ∀ (fuel n : Nat), n ≤ fuel →
    digitsValRev (digitsRevAux fuel n) = n := by
  intro fuel
  induction fuel with
  | zero => intro n hn; interval_cases n; rfl
  | succ fuel ih =>
      intro n hn
      by_cases h0 : n = 0
      · subst h0; rfl
      · have hdiv : n / 10 ≤ fuel := by
          have : n / 10 < n := Nat.div_lt_self (Nat.pos_of_ne_zero h0) (by omega)
          omega
        simp only [digitsRevAux, if_neg h0, digitsValRev, ih _ hdiv]
        exact Nat.mod_add_div n 10

theorem digitsValRev_digitsRev (n : Nat) : digitsValRev (digitsRev n) = n :=
  digitsValRev_digitsRevAux n n le_rfl

theorem digitsRevAux_lt_ten : ∀ (fuel n d : Nat), d ∈ digitsRevAux fuel n → d < 10 := by
  intro fuel
  induction fuel with
  | zero => intro n d h; simp [digitsRevAux] at h
  | succ fuel ih =>
      intro n d h
      by_cases h0 : n = 0
      · subst h0; simp [digitsRevAux] at h
      · simp only [digitsRevAux, if_neg h0, List.mem_cons] at h
        rcases h with h | h
        · subst h; exact Nat.mod_lt _ (by omega)
        · exact ih _ _ h

theorem toNat_digitChar (d : Nat) (h : d < 10) : (digitChar d).toNat = 48 + d := by
  interval_cases d <;> rfl

theorem foldl_map_digitChar (ds : List Nat) (acc : Nat) (h : ∀ d ∈ ds, d < 10) :
    List.foldl (fun a c => 10 * a + (c.toNat - 48)) acc (ds.map digitChar) =
      List.foldl (fun a d => 10 * a + d) acc ds := by
  induction ds generalizing acc with
  | nil => rfl
  | cons d ds ih =>
      have hd : d < 10 := h d (List.mem_cons_self _ _)
      simp only [List.map_cons, List.foldl_cons, toNat_digitChar d hd, Nat.add_sub_cancel_left]
      exact ih _ (fun x hx => h x (List.mem_cons_of_mem _ hx))

theorem foldl_reverse_digits (ds : List Nat) (acc : Nat) :
    List.foldl (fun a d => 10 * a + d) acc ds.reverse =
      acc * 10 ^ ds.length + digitsValRev ds := by
  induction ds generalizing acc with
  | nil => simp [digitsValRev]
  | cons d ds ih =>
      simp only [List.reverse_cons, List.foldl_append, List.foldl_cons, List.foldl_nil, ih,
        digitsValRev, List.length_cons]
      ring

theorem digitsVal_decimalRepr (n : Nat) : digitsVal (decimalRepr n).data = n := by
  by_cases h0 : n = 0
  · subst h0; rfl
  · have hlt : ∀ d ∈ (digitsRev n).reverse, d < 10 := by
      intro d hd
      exact digitsRevAux_lt_ten n n d (List.mem_reverse.mp hd)
    have h1 : (decimalRepr n).data = ((digitsRev n).reverse).map digitChar := by
      simp [decimalRepr, if_neg h0]
    rw [h1]
    calc digitsVal (((digitsRev n).reverse).map digitChar)
        = List.foldl (fun a c => 10 * a + (c.toNat - 48)) 0
            (((digitsRev n).reverse).map digitChar) := rfl
      _ = List.foldl (fun a d => 10 * a + d) 0 (digitsRev n).reverse :=
          foldl_map_digitChar _ 0 hlt
      _ = 0 * 10 ^ (digitsRev n).length + digitsValRev (digitsRev n) :=
          foldl_reverse_digits _ 0
      _ = n := by rw [digitsValRev_digitsRev]; ring

theorem decimalRepr_injective : Function.Injective decimalRepr := by
  intro m n h
  have h2 := congrArg (fun s => digitsVal s.data) h
  simp only [] at h2
  rw [digitsVal_decimalRepr, digitsVal_decimalRepr] at h2
  exact h2

theorem attName_injective : Function.Injective attName := by
  intro i j h
  apply decimalRepr_injective
  apply String.ext
  have hd := congrArg String.data h
  simp only [attName] at hd
  exact List.append_cancel_left (show ("att").data ++ (decimalRepr i).data =
    ("att").data ++ (decimalRepr j).data from hd)

theorem listIndex_cons_self (x : String) (l : List String) :
    listIndex (x :: l) x = 0 := by
  simp [listIndex]

theorem listIndex_append_of_not_mem (pre l : List String) (x : String) (h : x ∉ pre) :
    listIndex (pre ++ l) x = pre.length + listIndex l x := by
  induction pre with
  | nil => simp [listIndex]
  | cons a pre ih =>
      have ha : a ≠ x := by intro hax; exact h (by simp [hax])
      have hx : x ∉ pre := fun hm => h (List.mem_cons_of_mem _ hm)
      show listIndex (a :: (pre ++ l)) x = _
      simp only [listIndex, if_neg ha]
      rw [ih hx]
      simp only [List.length_cons]
      omega

theorem buildInstrAux_ok_spec {σ : Type} (openF : String → Option σ) (full : List String)
    (hnd : full.Nodup) :
    ∀ (rest pre : List String) (acc : List (String × Sess σ)) (ctr : Nat)
      (final : List (String × Sess σ)) (opened : List (Nat × String)),
      full = pre ++ rest →
      acc.map Prod.fst = (List.range pre.length).map attName →
      buildInstrAux openF full rest acc ctr = (.ok final, opened) →
      final.map Prod.fst = (List.range full.length).map attName ∧
      ∃ ext, final = acc ++ ext ∧
        ext.map (fun p => p.2.id) = opened.map Prod.fst := by
  intro rest
  induction rest with
  | nil =>
      intro pre acc ctr final opened hfull hacc hrun
      simp only [buildInstrAux, Prod.mk.injEq, Except.ok.injEq] at hrun
      obtain ⟨h1, h2⟩ := hrun
      subst h1; subst h2
      refine ⟨?_, [], by simp, by simp⟩
      rw [hfull]; simpa using hacc
  | cons ins rest ih =>
      intro pre acc ctr final opened hfull hacc hrun
      cases hopen : openF ins with
      | none => simp [buildInstrAux, hopen] at hrun
      | some s0 =>
          have hins_notin_pre : ins ∉ pre := by
            rw [hfull] at hnd
            rcases List.nodup_append.mp hnd with ⟨-, -, hdisj⟩
            exact fun hm => hdisj hm (List.mem_cons_self _ _)
          have hkey : listIndex full ins = pre.length := by
            rw [hfull, listIndex_append_of_not_mem _ _ _ hins_notin_pre,
              listIndex_cons_self]
            omega
          have hfresh : ∀ p ∈ acc, p.1 ≠ attName (listIndex full ins) := by
            intro p hp heq
            have hmem : p.1 ∈ (List.range pre.length).map attName := by
              rw [← hacc]; exact List.mem_map_of_mem _ hp
            obtain ⟨j, hj, hj2⟩ := List.mem_map.mp hmem
            rw [hkey] at heq
            have hjeq : j = pre.length := attName_injective (by rw [hj2, heq])
            rw [List.mem_range] at hj
            omega
          simp only [buildInstrAux, hopen] at hrun
          rcases hinner : buildInstrAux openF full rest
              (dictInsert acc (attName (listIndex full ins)) ⟨ctr, s0⟩) (ctr + 1)
            with ⟨r1, r2⟩
          rw [hinner] at hrun
          have h1 : r1 = Except.ok final := congrArg Prod.fst hrun
          have h2 : (ctr, ins) :: r2 = opened := congrArg Prod.snd hrun
          rw [dictInsert_fresh _ _ _ hfresh] at hinner
          have hfull2 : full = (pre ++ [ins]) ++ rest := by rw [hfull]; simp
          have hacc2 : (acc ++ [(attName (listIndex full ins), (⟨ctr, s0⟩ : Sess σ))]).map
              Prod.fst = (List.range (pre ++ [ins]).length).map attName := by
            simp only [List.map_append, hacc, hkey, List.length_append, List.length_cons,
              List.length_nil, List.map_cons, List.map_nil]
            rw [show pre.length + (0 + 1) = pre.length + 1 by omega, List.range_succ,
              List.map_append]
            simp
          obtain ⟨hkeys, ext, hext, hids⟩ :=
            ih (pre ++ [ins]) _ (ctr + 1) final r2 hfull2 hacc2 (by rw [hinner, h1])
          refine ⟨hkeys, (attName (listIndex full ins), ⟨ctr, s0⟩) :: ext, ?_, ?_⟩
          · rw [hext]; simp
          · rw [← h2]
            simp [hids]

theorem buildInstrAux_fail {σ : Type} (openF : String → Option σ) (full : List String)
    (bad : String) (hbad : openF bad = none) :
    ∀ (pre post : List String) (acc : List (String × Sess σ)) (ctr : Nat),
      (∀ a ∈ pre, (openF a).isSome) →
      buildInstrAux openF full (pre ++ bad :: post) acc ctr =
        (.error (), (List.range' ctr pre.length).zip pre) := by
  intro pre
  induction pre with
  | nil =>
      intro post acc ctr hpre
      simp [buildInstrAux, hbad]
  | cons a pre ih =>
      intro post acc ctr hpre
      obtain ⟨s0, hs0⟩ := Option.isSome_iff_exists.mp (hpre a (List.mem_cons_self _ _))
      show buildInstrAux openF full (a :: (pre ++ bad :: post)) acc ctr = _
      simp only [buildInstrAux, hs0]
      rw [ih post _ (ctr + 1) (fun x hx => hpre x (List.mem_cons_of_mem _ hx))]
      simp [List.range'_succ]

theorem queryAllowedAux_ok_spec {σ : Type} (M : InstrumentModel σ) :
    ∀ (l : List (String × Sess σ)) (allowed : List (String × List String))
      (instrs1 : List (String × Sess σ)),
      queryAllowedAux M l = .ok (allowed, instrs1) →
      instrs1.map Prod.fst = l.map Prod.fst ∧
      instrs1.map (fun p => p.2.id) = l.map (fun p => p.2.id) ∧
      allowed.map Prod.fst = l.map Prod.fst := by
  intro l
  induction l with
  | nil =>
      intro allowed instrs1 h
      simp only [queryAllowedAux, Except.ok.injEq, Prod.mk.injEq] at h
      obtain ⟨h1, h2⟩ := h
      subst h1; subst h2
      simp
  | cons p t ih =>
      intro allowed instrs1 h
      obtain ⟨name, s⟩ := p
      simp only [queryAllowedAux] at h
      cases hstep : InstrumentModel.step M s.st ("ATT:ATTTabGet?") with
      | error e => simp [hstep] at h
      | ok pr =>
          obtain ⟨resp, st1⟩ := pr
          simp only [hstep] at h
          cases hrec : queryAllowedAux M t with
          | error e => simp [hrec] at h
          | ok pr2 =>
              obtain ⟨al2, in2⟩ := pr2
              simp only [hrec, Except.ok.injEq, Prod.mk.injEq] at h
              obtain ⟨h1, h2⟩ := h
              obtain ⟨ha, hb, hc⟩ := ih al2 in2 hrec
              rw [← h1, ← h2]
              simp [ha, hb, hc]

/-! ## Concrete fixtures for witness instances -/

/-- A well-behaved instrument double: answers every query with the
numeric token `"5"` and does not change state. -/
def echoModel : InstrumentModel Unit :=
  ⟨fun s _ => .ok (("5"), s)⟩

/-- A transport that always times out. -/
def timeoutModel : InstrumentModel Unit :=
  ⟨fun _ _ => .error .timeout⟩

/-- A transport whose initial `ATT:ATTTabGet?` query times out but
that otherwise answers `"5"`. -/
def tabFailModel : InstrumentModel Unit :=
  ⟨fun s cmd => if cmd = "ATT:ATTTabGet?" then .error .timeout else .ok (("5"), s)⟩

/-- An environment in which every `open_resource` succeeds. -/
def alwaysOpen : String → Option Unit :=
  fun _ => some ()

/-- An environment in which opening `"ACM1"` raises and every other
open succeeds. -/
def failOpen1 : String → Option Unit :=
  fun a => if a = "ACM1" then none else some ()

/-- A misbehaving instrument double: answers every query with the
non-numeric line `"ERR"`. -/
def junkModel : InstrumentModel Unit :=
  ⟨fun s _ => .ok (("ERR"), s)⟩

/-- A one-instrument registry: `att0` with allowed tokens 0, 5, 10. -/
def ctlFix : RfControl Unit :=
  ⟨["ASRL/dev/ttyACM0::INSTR"], [(("att0"), ())], [(("att0"), ["0", "5", "10"])]⟩

/-! ## Claim theorems -/


theorem hasACMSub_iff (cs : List Char) :
    hasACMSub cs = true ↔ ∃ p q, cs = p ++ ("ACM").toList ++ q := by
  induction cs with
  | nil =>
      constructor
      · intro h; simp [hasACMSub] at h
      · rintro ⟨p, q, hpq⟩
        have hlen := congrArg List.length hpq
        simp only [List.length_nil, List.length_append] at hlen
        have h3 : ("ACM").toList.length = 3 := rfl
        omega
  | cons c cs ih =>
      constructor
      · intro h
        simp only [hasACMSub, Bool.or_eq_true] at h
        rcases h with h | h
        · obtain ⟨t, ht⟩ := List.isPrefixOf_iff_prefix.mp h
          exact ⟨[], t, by rw [← ht]; simp⟩
        · obtain ⟨p, q, hpq⟩ := ih.mp h
          exact ⟨c :: p, q, by rw [hpq]; simp⟩
      · rintro ⟨p, q, hpq⟩
        simp only [hasACMSub, Bool.or_eq_true]
        cases p with
        | nil =>
            left
            apply List.isPrefixOf_iff_prefix.mpr
            exact ⟨q, by rw [hpq]; simp⟩
        | cons a p =>
            right
            apply ih.mpr
            refine ⟨p, q, ?_⟩
            rw [List.cons_append] at hpq
            exact (List.cons.injEq c cs a (p ++ ("ACM").toList ++ q) ▸ hpq).2

/-- C7: for every input list of interface address strings,
`get_acm_ctrl_list` returns exactly the sublist of addresses whose
identifier contains the substring "ACM", in their original order (it
is a pure function: a sublist of the input whose members are exactly
the matching addresses, with the matching multiplicity). -/
theorem C7_get_acm_ctrl_list_spec (interfaces_list : List String) :
    (get_acm_ctrl_list interfaces_list).Sublist interfaces_list ∧
    (∀ x, x ∈ get_acm_ctrl_list interfaces_list ↔
      x ∈ interfaces_list ∧ ∃ p q, x.toList = p ++ ("ACM").toList ++ q) ∧
    (get_acm_ctrl_list interfaces_list).length =
      interfaces_list.countP (fun elem => hasACMSub elem.toList) := by
  refine ⟨List.filter_sublist _, ?_, (List.countP_eq_length_filter _ _).symm⟩
  intro x
  simp only [get_acm_ctrl_list, List.mem_filter, hasACMSub_iff]

/-- Witness for C7 at a concrete enumeration. -/
theorem C7_get_acm_ctrl_list_spec_witness :
    (get_acm_ctrl_list ["USB0::INSTR", "ASRL/dev/ttyACM0::INSTR"]).Sublist
      ["USB0::INSTR", "ASRL/dev/ttyACM0::INSTR"] ∧
    (∀ x, x ∈ get_acm_ctrl_list ["USB0::INSTR", "ASRL/dev/ttyACM0::INSTR"] ↔
      x ∈ ["USB0::INSTR", "ASRL/dev/ttyACM0::INSTR"] ∧
      ∃ p q, x.toList = p ++ ("ACM").toList ++ q) ∧
    (get_acm_ctrl_list ["USB0::INSTR", "ASRL/dev/ttyACM0::INSTR"]).length =
      List.countP (fun elem => hasACMSub elem.toList)
        ["USB0::INSTR", "ASRL/dev/ttyACM0::INSTR"] :=
  C7_get_acm_ctrl_list_spec ["USB0::INSTR", "ASRL/dev/ttyACM0::INSTR"]

/-- C6: with zero addresses matching the ACM convention, `__init__`
raises the `NameError` whose message is "No ACM resources found,
please check your devices connection" before any `open_resource`
call, so no session is ever opened. -/
theorem C6_no_acm_resources {σ : Type} (openF : String → Option σ)
    (M : InstrumentModel σ) (resources : List String)
    (h : get_acm_ctrl_list resources = []) :
    rfInit openF M resources =
      (.error (.noAcm ("No ACM resources found, please check your devices connection")),
        []) := by
  simp [rfInit, h]

/-- Witness for C6: a USB-only enumeration. -/
theorem C6_no_acm_resources_witness :
    rfInit alwaysOpen echoModel ["USB0::INSTR", "GPIB0::1::INSTR"] =
      (.error (.noAcm ("No ACM resources found, please check your devices connection")),
        []) :=
  C6_no_acm_resources alwaysOpen echoModel ["USB0::INSTR", "GPIB0::1::INSTR"] (by rfl)

/-- C3: for a name absent from the registry, `get_att_value` and
`set_att_value` fail with "Instrument name not found" while
`set_step_up` and `set_step_down` fail with "Unsupported attenuation
value" (the asymmetric message of source lines 125 and 144), all with
a `None` value, an untouched registry and no command sent. -/
theorem C3_unknown_name_messages {σ : Type} (M : InstrumentModel σ) (ctl : RfControl σ)
    (instrument_name att_value : String)
    (h : dictLookup ctl.instruments instrument_name = none) :
    RfControl.get_att_value M ctl instrument_name =
      (.ok ⟨false, none, "Instrument name not found"⟩, ctl, []) ∧
    RfControl.set_att_value M ctl instrument_name att_value =
      (.ok ⟨false, none, "Instrument name not found"⟩, ctl, []) ∧
    RfControl.set_step_up M ctl instrument_name =
      (.ok ⟨false, none, "Unsupported attenuation value"⟩, ctl, []) ∧
    RfControl.set_step_down M ctl instrument_name =
      (.ok ⟨false, none, "Unsupported attenuation value"⟩, ctl, []) := by
  refine ⟨?_, ?_, ?_, ?_⟩ <;>
    simp [RfControl.get_att_value, RfControl.set_att_value, RfControl.set_step_up,
      RfControl.set_step_down, h]

/-- Witness for C3: the name "bogus" against the one-instrument fixture. -/
theorem C3_unknown_name_messages_witness :
    RfControl.get_att_value echoModel ctlFix ("bogus") =
      (.ok ⟨false, none, "Instrument name not found"⟩, ctlFix, []) ∧
    RfControl.set_att_value echoModel ctlFix ("bogus") ("5") =
      (.ok ⟨false, none, "Instrument name not found"⟩, ctlFix, []) ∧
    RfControl.set_step_up echoModel ctlFix ("bogus") =
      (.ok ⟨false, none, "Unsupported attenuation value"⟩, ctlFix, []) ∧
    RfControl.set_step_down echoModel ctlFix ("bogus") =
      (.ok ⟨false, none, "Unsupported attenuation value"⟩, ctlFix, []) :=
  C3_unknown_name_messages echoModel ctlFix ("bogus") ("5") (by rfl)

/-- The triple-shape invariant of C9: success iff a non-null value,
success iff an empty message. -/
def tripleInv (t : Triple) : Prop :=
  (t.status = true ↔ t.att_val ≠ none) ∧ (t.status = true ↔ t.msg = "")

/-- C9: whenever a facade operation returns a `(status, att_val, msg)`
tuple (rather than raising), `status = True` iff `att_val` is
non-null, and `status = True` iff `msg` is empty. -/
theorem C9_triple_invariant {σ : Type} (M : InstrumentModel σ) (ctl : RfControl σ)
    (instrument_name att_value : String) :
    (∀ t rest, RfControl.get_att_value M ctl instrument_name = (.ok t, rest) →
      tripleInv t) ∧
    (∀ t rest, RfControl.set_att_value M ctl instrument_name att_value = (.ok t, rest) →
      tripleInv t) ∧
    (∀ t rest, RfControl.set_step_up M ctl instrument_name = (.ok t, rest) →
      tripleInv t) ∧
    (∀ t rest, RfControl.set_step_down M ctl instrument_name = (.ok t, rest) →
      tripleInv t) := by
  refine ⟨?_, ?_, ?_, ?_⟩ <;> intro t rest h
  · unfold RfControl.get_att_value at h
    repeat' split at h
    all_goals (try dsimp only at h)
    all_goals first
      | (rw [Prod.mk.injEq] at h
         have h1 := h.1
         rw [Except.ok.injEq] at h1
         subst h1
         simp [tripleInv])
      | simp at h
  · unfold RfControl.set_att_value at h
    repeat' split at h
    all_goals (try dsimp only at h)
    all_goals first
      | (rw [Prod.mk.injEq] at h
         have h1 := h.1
         rw [Except.ok.injEq] at h1
         subst h1
         simp [tripleInv])
      | simp at h
  · unfold RfControl.set_step_up at h
    repeat' split at h
    all_goals (try dsimp only at h)
    all_goals first
      | (rw [Prod.mk.injEq] at h
         have h1 := h.1
         rw [Except.ok.injEq] at h1
         subst h1
         simp [tripleInv])
      | simp at h
  · unfold RfControl.set_step_down at h
    repeat' split at h
    all_goals (try dsimp only at h)
    all_goals first
      | (rw [Prod.mk.injEq] at h
         have h1 := h.1
         rw [Except.ok.injEq] at h1
         subst h1
         simp [tripleInv])
      | simp at h

/-- Witness for C9: the tuple a successful `get_att_value` returns
against the echoing double satisfies the invariant. -/
theorem C9_triple_invariant_witness :
    tripleInv ⟨true, some ((1 : ℚ) * ((digitsVal ['5'] : Nat) : ℚ)), ""⟩ :=
  (C9_triple_invariant echoModel ctlFix ("att0") ("5")).1
    ⟨true, some ((1 : ℚ) * ((digitsVal ['5'] : Nat) : ℚ)), ""⟩
    ({ ctlFix with instruments := dictInsert ctlFix.instruments ("att0") () },
      ["ATT:ATTGetCurVal?"]) (by rfl)

/-- C10: a `set_att_value` call that fails validation (unknown name,
or value token not in the cached allowed list) sends no command and
leaves the registry untouched; conversely a command is only ever sent
once both checks have passed. -/
theorem C10_set_att_value_frame {σ : Type} (M : InstrumentModel σ) (ctl : RfControl σ)
    (instrument_name att_value : String) :
    (dictLookup ctl.instruments instrument_name = none →
      RfControl.set_att_value M ctl instrument_name att_value =
        (.ok ⟨false, none, "Instrument name not found"⟩, ctl, [])) ∧
    (∀ s allowed, dictLookup ctl.instruments instrument_name = some s →
      dictLookup ctl.att_values_allowed instrument_name = some allowed →
      att_value ∉ allowed →
      RfControl.set_att_value M ctl instrument_name att_value =
        (.ok ⟨false, none, "Unsupported attenuation value"⟩, ctl, [])) ∧
    (∀ r ctl1 trace,
      RfControl.set_att_value M ctl instrument_name att_value = (r, ctl1, trace) →
      trace ≠ [] →
      ∃ s allowed, dictLookup ctl.instruments instrument_name = some s ∧
        dictLookup ctl.att_values_allowed instrument_name = some allowed ∧
        att_value ∈ allowed) := by
  refine ⟨?_, ?_, ?_⟩
  · intro h
    simp [RfControl.set_att_value, h]
  · intro s allowed hs ha hmem
    simp [RfControl.set_att_value, hs, ha, hmem]
  · intro r ctl1 trace h htr
    unfold RfControl.set_att_value at h
    cases hd : dictLookup ctl.instruments instrument_name with
    | none =>
        simp only [hd] at h
        exact absurd (congrArg (fun p => p.2.2) h).symm htr
    | some s =>
        cases ha : dictLookup ctl.att_values_allowed instrument_name with
        | none =>
            simp only [hd, ha] at h
            exact absurd (congrArg (fun p => p.2.2) h).symm htr
        | some allowed =>
            by_cases hmem : att_value ∈ allowed
            · exact ⟨s, allowed, rfl, rfl, hmem⟩
            · simp only [hd, ha, if_neg hmem] at h
              exact absurd (congrArg (fun p => p.2.2) h).symm htr

/-- Witness for C10: unknown name and unsupported token against the
fixture registry. -/
theorem C10_set_att_value_frame_witness :
    RfControl.set_att_value echoModel ctlFix ("nope") ("5") =
      (.ok ⟨false, none, "Instrument name not found"⟩, ctlFix, []) ∧
    RfControl.set_att_value echoModel ctlFix ("att0") ("7") =
      (.ok ⟨false, none, "Unsupported attenuation value"⟩, ctlFix, []) :=
  ⟨(C10_set_att_value_frame echoModel ctlFix ("nope") ("5")).1 (by rfl),
   (C10_set_att_value_frame echoModel ctlFix ("att0") ("7")).2.1 () ["0", "5", "10"]
     (by rfl) (by rfl) (by decide)⟩

/-- C1: for a known instrument, `set_att_value` succeeds with the
echoed float exactly when the value is a member — as an exact
originally-formatted string token — of the cached allowed list (and
the device echoes a numeric line), and fails with "Unsupported
attenuation value" for every token outside that list. -/
theorem C1_set_att_value_exact_membership {σ : Type} (M : InstrumentModel σ)
    (ctl : RfControl σ) (instrument_name att_value : String) (s : σ)
    (allowed : List String)
    (hs : dictLookup ctl.instruments instrument_name = some s)
    (ha : dictLookup ctl.att_values_allowed instrument_name = some allowed) :
    (∀ x resp s1 v, att_value ∈ allowed →
      parseFloat att_value = some x →
      InstrumentModel.step M s (setCmd x) = .ok (resp, s1) →
      parseFloat resp = some v →
      RfControl.set_att_value M ctl instrument_name att_value =
        (.ok ⟨true, some v, ""⟩,
          { ctl with instruments := dictInsert ctl.instruments instrument_name s1 },
          [setCmd x])) ∧
    (att_value ∉ allowed →
      RfControl.set_att_value M ctl instrument_name att_value =
        (.ok ⟨false, none, "Unsupported attenuation value"⟩, ctl, [])) := by
  constructor
  · intro x resp s1 v hmem hx hstep hv
    simp [RfControl.set_att_value, hs, ha, hmem, hx, hstep, hv]
  · intro hmem
    simp [RfControl.set_att_value, hs, ha, hmem]

/-- Witness for C1: `"5"` (a member token) is accepted and echoed;
`"5.0"` (numerically equal but a different token) is rejected. -/
theorem C1_set_att_value_exact_membership_witness :
    RfControl.set_att_value echoModel ctlFix ("att0") ("5") =
      (.ok ⟨true, some ((1 : ℚ) * ((digitsVal ['5'] : Nat) : ℚ)), ""⟩,
        { ctlFix with instruments := dictInsert ctlFix.instruments ("att0") () },
        [setCmd ((1 : ℚ) * ((digitsVal ['5'] : Nat) : ℚ))]) ∧
    RfControl.set_att_value echoModel ctlFix ("att0") ("5.0") =
      (.ok ⟨false, none, "Unsupported attenuation value"⟩, ctlFix, []) :=
  ⟨(C1_set_att_value_exact_membership echoModel ctlFix ("att0") ("5") ()
      ["0", "5", "10"] (by rfl) (by rfl)).1
      ((1 : ℚ) * ((digitsVal ['5'] : Nat) : ℚ)) ("5") ()
      ((1 : ℚ) * ((digitsVal ['5'] : Nat) : ℚ))
      (by decide) (by rfl) (by rfl) (by rfl),
   (C1_set_att_value_exact_membership echoModel ctlFix ("att0") ("5.0") ()
      ["0", "5", "10"] (by rfl) (by rfl)).2 (by decide)⟩

/-- C2 counterexample: a timeout on the current-value query escapes
`get_att_value` as an exception — it is not converted into a
`(False, None, message)` tuple, contrary to the claim that no
lower-layer failure crosses the facade boundary. -/
theorem C2_counterexample :
    (RfControl.get_att_value timeoutModel ctlFix ("att0")).1 =
      .error PyError.timeout := by
  rfl

/-- C2 amended: each facade operation returns a
`(success, value, message)` tuple for validation failures (unknown
name; unsupported value) and for successful queries, but lower-layer
failures are NOT converted — a transport failure propagates out of
every one of the four operations as the corresponding exception, and
a malformed (non-numeric) response escapes every operation as the
`ValueError` of its `float(...)` call (lines 80, 101, 122, 141). -/
theorem C2_facade_error_behaviour {σ : Type} (M : InstrumentModel σ)
    (ctl : RfControl σ) (instrument_name att_value : String) :
    (dictLookup ctl.instruments instrument_name = none →
      (RfControl.get_att_value M ctl instrument_name).1 =
        .ok ⟨false, none, "Instrument name not found"⟩ ∧
      (RfControl.set_att_value M ctl instrument_name att_value).1 =
        .ok ⟨false, none, "Instrument name not found"⟩ ∧
      (RfControl.set_step_up M ctl instrument_name).1 =
        .ok ⟨false, none, "Unsupported attenuation value"⟩ ∧
      (RfControl.set_step_down M ctl instrument_name).1 =
        .ok ⟨false, none, "Unsupported attenuation value"⟩) ∧
    (∀ s allowed, dictLookup ctl.instruments instrument_name = some s →
      dictLookup ctl.att_values_allowed instrument_name = some allowed →
      att_value ∉ allowed →
      (RfControl.set_att_value M ctl instrument_name att_value).1 =
        .ok ⟨false, none, "Unsupported attenuation value"⟩) ∧
    (∀ s resp s1 v, dictLookup ctl.instruments instrument_name = some s →
      InstrumentModel.step M s ("ATT:ATTGetCurVal?") = .ok (resp, s1) →
      parseFloat resp = some v →
      (RfControl.get_att_value M ctl instrument_name).1 = .ok ⟨true, some v, ""⟩) ∧
    (∀ s allowed x resp s1 v, dictLookup ctl.instruments instrument_name = some s →
      dictLookup ctl.att_values_allowed instrument_name = some allowed →
      att_value ∈ allowed → parseFloat att_value = some x →
      InstrumentModel.step M s (setCmd x) = .ok (resp, s1) →
      parseFloat resp = some v →
      (RfControl.set_att_value M ctl instrument_name att_value).1 =
        .ok ⟨true, some v, ""⟩) ∧
    (∀ s resp s1 v, dictLookup ctl.instruments instrument_name = some s →
      InstrumentModel.step M s ("ATT:ATTSetUp?") = .ok (resp, s1) →
      parseFloat resp = some v →
      (RfControl.set_step_up M ctl instrument_name).1 = .ok ⟨true, some v, ""⟩) ∧
    (∀ s resp s1 v, dictLookup ctl.instruments instrument_name = some s →
      InstrumentModel.step M s ("ATT:ATTSetDown?") = .ok (resp, s1) →
      parseFloat resp = some v →
      (RfControl.set_step_down M ctl instrument_name).1 = .ok ⟨true, some v, ""⟩) ∧
    (∀ s e, dictLookup ctl.instruments instrument_name = some s →
      InstrumentModel.step M s ("ATT:ATTGetCurVal?") = .error e →
      (RfControl.get_att_value M ctl instrument_name).1 = .error (liftQ e)) ∧
    (∀ s allowed x e, dictLookup ctl.instruments instrument_name = some s →
      dictLookup ctl.att_values_allowed instrument_name = some allowed →
      att_value ∈ allowed → parseFloat att_value = some x →
      InstrumentModel.step M s (setCmd x) = .error e →
      (RfControl.set_att_value M ctl instrument_name att_value).1 =
        .error (liftQ e)) ∧
    (∀ s e, dictLookup ctl.instruments instrument_name = some s →
      InstrumentModel.step M s ("ATT:ATTSetUp?") = .error e →
      (RfControl.set_step_up M ctl instrument_name).1 = .error (liftQ e)) ∧
    (∀ s e, dictLookup ctl.instruments instrument_name = some s →
      InstrumentModel.step M s ("ATT:ATTSetDown?") = .error e →
      (RfControl.set_step_down M ctl instrument_name).1 = .error (liftQ e)) ∧
    (∀ s resp s1, dictLookup ctl.instruments instrument_name = some s →
      InstrumentModel.step M s ("ATT:ATTGetCurVal?") = .ok (resp, s1) →
      parseFloat resp = none →
      (RfControl.get_att_value M ctl instrument_name).1 = .error .valueError) ∧
    (∀ s allowed x resp s1, dictLookup ctl.instruments instrument_name = some s →
      dictLookup ctl.att_values_allowed instrument_name = some allowed →
      att_value ∈ allowed → parseFloat att_value = some x →
      InstrumentModel.step M s (setCmd x) = .ok (resp, s1) →
      parseFloat resp = none →
      (RfControl.set_att_value M ctl instrument_name att_value).1 =
        .error .valueError) ∧
    (∀ s resp s1, dictLookup ctl.instruments instrument_name = some s →
      InstrumentModel.step M s ("ATT:ATTSetUp?") = .ok (resp, s1) →
      parseFloat resp = none →
      (RfControl.set_step_up M ctl instrument_name).1 = .error .valueError) ∧
    (∀ s resp s1, dictLookup ctl.instruments instrument_name = some s →
      InstrumentModel.step M s ("ATT:ATTSetDown?") = .ok (resp, s1) →
      parseFloat resp = none →
      (RfControl.set_step_down M ctl instrument_name).1 = .error .valueError) := by
  refine ⟨?_, ?_, ?_, ?_, ?_, ?_, ?_, ?_, ?_, ?_, ?_, ?_, ?_, ?_⟩
  · intro h
    refine ⟨?_, ?_, ?_, ?_⟩ <;>
      simp [RfControl.get_att_value, RfControl.set_att_value, RfControl.set_step_up,
        RfControl.set_step_down, h]
  · intro s allowed hs ha hmem
    simp [RfControl.set_att_value, hs, ha, hmem]
  · intro s resp s1 v hs hstep hv
    simp [RfControl.get_att_value, hs, hstep, hv]
  · intro s allowed x resp s1 v hs ha hmem hx hstep hv
    simp [RfControl.set_att_value, hs, ha, hmem, hx, hstep, hv]
  · intro s resp s1 v hs hstep hv
    simp [RfControl.set_step_up, hs, hstep, hv]
  · intro s resp s1 v hs hstep hv
    simp [RfControl.set_step_down, hs, hstep, hv]
  · intro s e hs hstep
    simp [RfControl.get_att_value, hs, hstep]
  · intro s allowed x e hs ha hmem hx hstep
    simp [RfControl.set_att_value, hs, ha, hmem, hx, hstep]
  · intro s e hs hstep
    simp [RfControl.set_step_up, hs, hstep]
  · intro s e hs hstep
    simp [RfControl.set_step_down, hs, hstep]
  · intro s resp s1 hs hstep hresp
    simp [RfControl.get_att_value, hs, hstep, hresp]
  · intro s allowed x resp s1 hs ha hmem hx hstep hresp
    simp [RfControl.set_att_value, hs, ha, hmem, hx, hstep, hresp]
  · intro s resp s1 hs hstep hresp
    simp [RfControl.set_step_up, hs, hstep, hresp]
  · intro s resp s1 hs hstep hresp
    simp [RfControl.set_step_down, hs, hstep, hresp]

/-- Witness for the amended C2: a timeout escapes both `get_att_value`
and `set_att_value`; a non-numeric response makes `set_att_value`
escape with a `ValueError`; a responsive device gives the success
tuple from `set_att_value`. -/
theorem C2_facade_error_behaviour_witness :
    (RfControl.get_att_value timeoutModel ctlFix ("att0")).1 =
      .error (liftQ QueryError.timeout) ∧
    (RfControl.set_att_value timeoutModel ctlFix ("att0") ("5")).1 =
      .error (liftQ QueryError.timeout) ∧
    (RfControl.set_att_value junkModel ctlFix ("att0") ("5")).1 =
      .error PyError.valueError ∧
    (RfControl.set_att_value echoModel ctlFix ("att0") ("5")).1 =
      .ok ⟨true, some ((1 : ℚ) * ((digitsVal ['5'] : Nat) : ℚ)), ""⟩ :=
  ⟨(C2_facade_error_behaviour timeoutModel ctlFix ("att0") ("5")).2.2.2.2.2.2.1 ()
      QueryError.timeout (by rfl) (by rfl),
   (C2_facade_error_behaviour timeoutModel ctlFix ("att0") ("5")).2.2.2.2.2.2.2.1 ()
      ["0", "5", "10"] ((1 : ℚ) * ((digitsVal ['5'] : Nat) : ℚ)) QueryError.timeout
      (by rfl) (by rfl) (by decide) (by rfl) (by rfl),
   (C2_facade_error_behaviour junkModel ctlFix ("att0")
        ("5")).2.2.2.2.2.2.2.2.2.2.2.1 ()
      ["0", "5", "10"] ((1 : ℚ) * ((digitsVal ['5'] : Nat) : ℚ)) ("ERR") ()
      (by rfl) (by rfl) (by decide) (by rfl) (by rfl) (by rfl),
   (C2_facade_error_behaviour echoModel ctlFix ("att0") ("5")).2.2.2.1 ()
      ["0", "5", "10"] ((1 : ℚ) * ((digitsVal ['5'] : Nat) : ℚ)) ("5") ()
      ((1 : ℚ) * ((digitsVal ['5'] : Nat) : ℚ))
      (by rfl) (by rfl) (by decide) (by rfl) (by rfl) (by rfl)⟩

/-- C8: against the simulated attenuator, `set_step_up` immediately
followed by `set_step_down` on the same instrument returns the device
to its original state and echoes the original value, provided the
device is not at the top of its range (no clamping). -/
theorem C8_step_up_down_roundtrip (ctl : RfControl SimState) (instrument_name : String)
    (s : SimState) (v0 v1 : ℚ)
    (hs : dictLookup ctl.instruments instrument_name = some s)
    (hnoclamp : s.idx + 1 < s.table.length)
    (hv0 : parseFloat (s.table.getD s.idx ("")) = some v0)
    (hv1 : parseFloat (s.table.getD (s.idx + 1) ("")) = some v1) :
    ∃ ctl1 ctl2,
      RfControl.set_step_up simModel ctl instrument_name =
        (.ok ⟨true, some v1, ""⟩, ctl1, ["ATT:ATTSetUp?"]) ∧
      RfControl.set_step_down simModel ctl1 instrument_name =
        (.ok ⟨true, some v0, ""⟩, ctl2, ["ATT:ATTSetDown?"]) ∧
      dictLookup ctl2.instruments instrument_name = some s ∧
      (RfControl.get_att_value simModel ctl instrument_name).1 =
        .ok ⟨true, some v0, ""⟩ := by
  have hup : simStep s ("ATT:ATTSetUp?") =
      .ok (s.table.getD (s.idx + 1) (""), ⟨s.table, s.idx + 1⟩) := by
    simp [simStep, hnoclamp]
  have hdown : simStep ⟨s.table, s.idx + 1⟩ ("ATT:ATTSetDown?") =
      .ok (s.table.getD s.idx (""), s) := by
    simp [simStep]
  have hget : simStep s ("ATT:ATTGetCurVal?") = .ok (s.table.getD s.idx (""), s) := by
    simp [simStep]
  have hv0n := hv0
  have hv1n := hv1
  simp only [List.getD, List.get?_eq_getElem?] at hv0n hv1n
  refine ⟨⟨ctl.resource_names,
      dictInsert ctl.instruments instrument_name ⟨s.table, s.idx + 1⟩,
      ctl.att_values_allowed⟩,
    ⟨ctl.resource_names,
      dictInsert (dictInsert ctl.instruments instrument_name ⟨s.table, s.idx + 1⟩)
        instrument_name s,
      ctl.att_values_allowed⟩, ?_, ?_, ?_, ?_⟩
  · simp [RfControl.set_step_up, hs, simModel, hup, hv1n]
  · simp [RfControl.set_step_down, simModel, dictLookup_dictInsert_self, hdown, hv0n]
  · exact dictLookup_dictInsert_self _ _ _
  · simp [RfControl.get_att_value, hs, simModel, hget, hv0n]

/-- The simulated attenuator fixture: table 0, 5, 10, resting at
index 0. -/
def simFix : SimState :=
  ⟨["0", "5", "10"], 0⟩

/-- A registry holding the simulated attenuator under `att0`. -/
def ctlSim : RfControl SimState :=
  ⟨["ASRL/dev/ttyACM0::INSTR"], [(("att0"), simFix)], [(("att0"), ["0", "5", "10"])]⟩

/-- Witness for C8: step up then down from index 0 of the 0/5/10
table returns to 0. -/
theorem C8_step_up_down_roundtrip_witness :
    ∃ ctl1 ctl2,
      RfControl.set_step_up simModel ctlSim ("att0") =
        (.ok ⟨true, some ((1 : ℚ) * ((digitsVal ['5'] : Nat) : ℚ)), ""⟩, ctl1,
          ["ATT:ATTSetUp?"]) ∧
      RfControl.set_step_down simModel ctl1 ("att0") =
        (.ok ⟨true, some ((1 : ℚ) * ((digitsVal ['0'] : Nat) : ℚ)), ""⟩, ctl2,
          ["ATT:ATTSetDown?"]) ∧
      dictLookup ctl2.instruments ("att0") = some simFix ∧
      (RfControl.get_att_value simModel ctlSim ("att0")).1 =
        .ok ⟨true, some ((1 : ℚ) * ((digitsVal ['0'] : Nat) : ℚ)), ""⟩ :=
  C8_step_up_down_roundtrip ctlSim ("att0") simFix
    ((1 : ℚ) * ((digitsVal ['0'] : Nat) : ℚ))
    ((1 : ℚ) * ((digitsVal ['5'] : Nat) : ℚ))
    (by rfl) (by decide) (by rfl) (by rfl)

/-- C4 counterexample: the comprehension keys instruments by
`resource_names.index(ins)` — the index of the FIRST occurrence — so
an enumeration with two equal matching addresses yields one logical
name, not `["att0", "att1"]`. -/
theorem C4_counterexample :
    ∃ ctl opened, rfInit alwaysOpen echoModel ["ACM0", "ACM0"] = (.ok ctl, opened) ∧
      RfControl.get_instrument_names ctl ≠ [attName 0, attName 1] := by
  refine ⟨_, _, rfl, ?_⟩
  decide

/-- C4 amended: when the matching addresses are pairwise distinct,
a successful initialization names the instruments exactly
`att0 … att<k-1>` in enumeration order, and the logical names are
unique. -/
theorem C4_names_in_discovery_order {σ : Type} (openF : String → Option σ)
    (M : InstrumentModel σ) (resources : List String) (ctl : RfControl (Sess σ))
    (opened : List (Nat × String))
    (hnd : (get_acm_ctrl_list resources).Nodup)
    (hrun : rfInit openF M resources = (.ok ctl, opened)) :
    RfControl.get_instrument_names ctl =
      (List.range (get_acm_ctrl_list resources).length).map attName ∧
    (RfControl.get_instrument_names ctl).Nodup := by
  unfold rfInit at hrun
  by_cases hempty : get_acm_ctrl_list resources = []
  · simp [hempty] at hrun
  · simp only [if_neg hempty] at hrun
    rcases hb : buildInstrAux openF (get_acm_ctrl_list resources)
        (get_acm_ctrl_list resources) [] 0 with ⟨r1, op⟩
    cases r1 with
    | error e => simp [hb] at hrun
    | ok instrs =>
        simp only [hb] at hrun
        cases hq : queryAllowedAux M instrs with
        | error e => simp [hq] at hrun
        | ok pr =>
            obtain ⟨allowed, instrs1⟩ := pr
            simp only [hq] at hrun
            have hctl : ctl = ⟨get_acm_ctrl_list resources, instrs1, allowed⟩ := by
              have := congrArg Prod.fst hrun
              simp only [Except.ok.injEq] at this
              exact this.symm
            obtain ⟨hkeys1, -, -⟩ := queryAllowedAux_ok_spec M instrs allowed instrs1 hq
            obtain ⟨hkeys, -⟩ := buildInstrAux_ok_spec openF _ hnd
              (get_acm_ctrl_list resources) [] [] 0 instrs op (by simp) (by simp) hb
            have hnames : RfControl.get_instrument_names ctl =
                (List.range (get_acm_ctrl_list resources).length).map attName := by
              rw [hctl]
              show instrs1.map Prod.fst = _
              rw [hkeys1, hkeys]
            exact ⟨hnames, by
              rw [hnames]
              exact List.Nodup.map attName_injective (List.nodup_range _)⟩

/-- The registry value a two-device discovery produces against the
echoing double. -/
def ctlTwo : RfControl (Sess Unit) :=
  ⟨["ACM0", "ACM1"],
    [(("att0"), ⟨0, ()⟩), (("att1"), ⟨1, ()⟩)],
    [(("att0"), ["5"]), (("att1"), ["5"])]⟩

/-- Witness for the amended C4: two distinct addresses give
`["att0", "att1"]`. -/
theorem C4_names_in_discovery_order_witness :
    RfControl.get_instrument_names ctlTwo =
      (List.range (get_acm_ctrl_list ["ACM0", "ACM1"]).length).map attName ∧
    (RfControl.get_instrument_names ctlTwo).Nodup :=
  C4_names_in_discovery_order alwaysOpen echoModel ["ACM0", "ACM1"] ctlTwo
    [(0, "ACM0"), (1, "ACM1")] (by decide) (by rfl)

/-- C5 counterexample: when opening the second device fails, the
session opened for the first device is NOT closed before the error
propagates — `self.instruments` was never assigned, so `__del__` dies
on the class-level list default and closes nothing. -/
theorem C5_counterexample :
    rfInit failOpen1 echoModel ["ACM0", "ACM1"] =
      (.error .openFailed, [(0, "ACM0")]) ∧
    [(0, "ACM0")] ≠ ([] : List (Nat × String)) :=
  ⟨by rfl, by decide⟩

/-- C5 amended: a failed initialization never returns a partial
registry; when the failure is an initial allowed-values query (with
distinct addresses) every opened session is closed by the destructor
before the error propagates, but when opening the Nth device fails,
the N previously opened sessions all remain open. -/
theorem C5_init_failure_cleanup {σ : Type} (openF : String → Option σ)
    (M : InstrumentModel σ) (resources : List String)
    (hnd : (get_acm_ctrl_list resources).Nodup) :
    (∀ still, rfInit openF M resources = (.error .queryFailed, still) → still = []) ∧
    (∀ pre bad post, get_acm_ctrl_list resources = pre ++ bad :: post →
      (∀ a ∈ pre, (openF a).isSome) → openF bad = none →
      rfInit openF M resources =
        (.error .openFailed, (List.range' 0 pre.length).zip pre)) := by
  constructor
  · intro still hrun
    unfold rfInit at hrun
    by_cases hempty : get_acm_ctrl_list resources = []
    · simp [hempty] at hrun
    · simp only [if_neg hempty] at hrun
      rcases hb : buildInstrAux openF (get_acm_ctrl_list resources)
          (get_acm_ctrl_list resources) [] 0 with ⟨r1, op⟩
      cases r1 with
      | error e => simp [hb] at hrun
      | ok instrs =>
          simp only [hb] at hrun
          cases hq : queryAllowedAux M instrs with
          | ok pr => obtain ⟨allowed, instrs1⟩ := pr; simp [hq] at hrun
          | error e =>
              simp only [hq] at hrun
              have hstill : op.filter
                  (fun p => ! instrs.any (fun q => q.2.id == p.1)) = still :=
                congrArg Prod.snd hrun
              rw [← hstill]
              obtain ⟨-, ext, hext, hids⟩ := buildInstrAux_ok_spec openF _ hnd
                (get_acm_ctrl_list resources) [] [] 0 instrs op (by simp) (by simp) hb
              rw [List.nil_append] at hext
              apply List.filter_eq_nil_iff.mpr
              intro p hp
              have hid : p.1 ∈ instrs.map (fun q => q.2.id) := by
                rw [hext, hids]
                exact List.mem_map_of_mem Prod.fst hp
              obtain ⟨q, hq2, hq3⟩ := List.mem_map.mp hid
              simp only [Bool.not_eq_true', Bool.not_eq_false]
              exact List.any_eq_true.mpr ⟨q, hq2, by simp [hq3]⟩
  · intro pre bad post hsplit hpre hbad
    unfold rfInit
    have hne : ¬ get_acm_ctrl_list resources = [] := by
      rw [hsplit]; simp
    simp only [if_neg hne]
    rw [hsplit, buildInstrAux_fail openF (pre ++ bad :: post) bad hbad pre post [] 0 hpre]

/-- Witness for the amended C5: a failed allowed-values query leaves
nothing open; a failed second open leaves exactly the first session
open. -/
theorem C5_init_failure_cleanup_witness :
    ([] : List (Nat × String)) = [] ∧
    rfInit failOpen1 echoModel ["ACM0", "ACM1"] =
      (.error .openFailed,
        (List.range' 0 (["ACM0"] : List String).length).zip ["ACM0"]) :=
  ⟨(C5_init_failure_cleanup alwaysOpen tabFailModel ["ACM0", "ACM1"] (by decide)).1
      [] (by rfl),
   (C5_init_failure_cleanup failOpen1 echoModel ["ACM0", "ACM1"] (by decide)).2
      ["ACM0"] ("ACM1") [] (by rfl) (by decide) (by rfl)⟩
